import Mathlib

/-!
Verification of the arithmetic-evaluator web endpoint (`src/app.py`).

The endpoint `calculate` receives a JSON body, extracts the `expression`
field, checks it for emptiness and against a character whitelist, and
hands it to Python's `eval`.  Over the whitelisted alphabet
`0123456789+-*/.() ` the reachable fragment of Python's expression
language is: integer and float literals, unary `+`/`-`, binary
`+ - * / // **`, parentheses, the empty tuple `()`, and call syntax
`f(x)`.  This file shallow-embeds that fragment: floats are modelled as
exact rationals extended with infinities and NaN (`EF`), with overflow
to infinity at the IEEE-754 double maximum; results of `**` with a
negative or non-integer exponent, and floor division involving
non-finite values, are represented by the opaque finite placeholder
`EF.approx` (their exact values are genuine floating-point facts that
the claims never touch).  Rounding of finite intermediate results is not
modelled; all concrete inputs used in theorems are exactly
representable or clearly overflowing.
-/

namespace CalcApp

attribute [local semireducible] Rat.mul Rat.add Rat.sub Rat.inv

/-- Extended float value: a finite (exact, unrounded) rational, the two
infinities, NaN, or `approx`, a placeholder for a finite float whose
exact value is not modelled (arises only from `**` and from floor
division with non-finite operands). -/
inductive EF
  | fin (q : ℚ)
  | inf
  | ninf
  | nan
  | approx
deriving DecidableEq, Repr

/-- Largest finite IEEE-754 double, exactly: `(2^53 - 1) * 2^971`,
written out as a decimal literal so that it evaluates by kernel
reduction. -/
def maxD : ℚ := ((179769313486231570814527423731704356798070567525844996598917476803157260780028538760589558632766878171540458953514382464234321326889464182768467546703537516986049910576551282076245490090389328944075868508455133942304583236903222948165808559332123348274797826204144723168738177180919299881250404026184124858368 : ℕ) : ℚ)

/-- Build a float from an exact rational, overflowing to the matching
infinity beyond the double range. -/
def mkEF (q : ℚ) : EF :=
  if maxD < q then .inf else if q < -maxD then .ninf else .fin q

/-- Float negation. -/
def efNegV : EF → EF
  | .fin q => .fin (-q)
  | .inf => .ninf
  | .ninf => .inf
  | .nan => .nan
  | .approx => .approx

/-- Float addition (IEEE rules on the extended values; `approx` absorbs). -/
def efAdd : EF → EF → EF
  | .fin a, .fin b => mkEF (a + b)
  | .nan, _ => .nan
  | _, .nan => .nan
  | .approx, _ => .approx
  | _, .approx => .approx
  | .inf, .ninf => .nan
  | .ninf, .inf => .nan
  | .inf, _ => .inf
  | _, .inf => .inf
  | .ninf, _ => .ninf
  | _, .ninf => .ninf

/-- Float subtraction. -/
def efSub (a b : EF) : EF := efAdd a (efNegV b)

/-- Float multiplication. -/
def efMul : EF → EF → EF
  | .fin a, .fin b => mkEF (a * b)
  | .nan, _ => .nan
  | _, .nan => .nan
  | .approx, _ => .approx
  | _, .approx => .approx
  | .inf, .inf => .inf
  | .inf, .ninf => .ninf
  | .ninf, .inf => .ninf
  | .ninf, .ninf => .inf
  | .inf, .fin q => if q = 0 then .nan else if 0 < q then .inf else .ninf
  | .fin q, .inf => if q = 0 then .nan else if 0 < q then .inf else .ninf
  | .ninf, .fin q => if q = 0 then .nan else if 0 < q then .ninf else .inf
  | .fin q, .ninf => if q = 0 then .nan else if 0 < q then .ninf else .inf

/-- Float true division; the caller has already ruled out a zero divisor
(Python raises `ZeroDivisionError` before this point). -/
def efDiv : EF → EF → EF
  | .fin a, .fin b => if b = 0 then .nan else mkEF (a / b)
  | .nan, _ => .nan
  | _, .nan => .nan
  | .approx, _ => .approx
  | _, .approx => .approx
  | .inf, .inf => .nan
  | .inf, .ninf => .nan
  | .ninf, .inf => .nan
  | .ninf, .ninf => .nan
  | .fin _, .inf => .fin 0
  | .fin _, .ninf => .fin 0
  | .inf, .fin q => if 0 < q then .inf else .ninf
  | .ninf, .fin q => if 0 < q then .ninf else .inf

/-- Float floor division; non-finite operands are not modelled exactly. -/
def efFdiv : EF → EF → EF
  | .fin a, .fin b =>
      if b = 0 then .nan
      else if maxD < a / b then .inf
      else if a / b < -maxD then .ninf
      else .fin (⌊a / b⌋ : ℤ)
  | _, _ => .approx

/-- A Python value reachable by evaluating a whitelisted expression:
an (arbitrary-precision) integer, a float, or the empty tuple `()`. -/
inductive PyVal
  | int (n : ℤ)
  | float (x : EF)
  | tup
deriving DecidableEq, Repr

/-- The exception kinds the evaluator can raise, mirrored on the
endpoint's `except` clauses: `ZeroDivisionError`, `SyntaxError`,
`TypeError`/other (message passed through), `OverflowError`. -/
inductive PyErr
  | zeroDiv
  | synErr
  | typeErr (msg : String)
  | overflowErr (msg : String)
deriving DecidableEq, Repr

deriving instance DecidableEq for Except

/-- Python type name of a value, for exception messages. -/
def pyTypeName : PyVal → String
  | .int _ => "int"
  | .float _ => "float"
  | .tup => "tuple"

/-- Conversion of a Python int to float, raising `OverflowError` for
magnitudes beyond the double range (CPython: "int too large to convert
to float"). -/
def intToEF (n : ℤ) : Except PyErr EF :=
  if maxD < (n : ℚ) ∨ (n : ℚ) < -maxD then
    .error (.overflowErr "int too large to convert to float")
  else .ok (.fin (n : ℚ))

/-- Python `+` (numeric addition, tuple concatenation). -/
def pyAdd : PyVal → PyVal → Except PyErr PyVal
  | .int a, .int b => .ok (.int (a + b))
  | .int a, .float y => do let ea ← intToEF a; .ok (.float (efAdd ea y))
  | .float x, .int b => do let eb ← intToEF b; .ok (.float (efAdd x eb))
  | .float x, .float y => .ok (.float (efAdd x y))
  | .tup, .tup => .ok .tup
  | a, b =>
      .error (.typeErr ("unsupported operand type(s) for +: '" ++
        pyTypeName a ++ "' and '" ++ pyTypeName b ++ "'"))

/-- Python binary `-`. -/
def pySub : PyVal → PyVal → Except PyErr PyVal
  | .int a, .int b => .ok (.int (a - b))
  | .int a, .float y => do let ea ← intToEF a; .ok (.float (efSub ea y))
  | .float x, .int b => do let eb ← intToEF b; .ok (.float (efSub x eb))
  | .float x, .float y => .ok (.float (efSub x y))
  | a, b =>
      .error (.typeErr ("unsupported operand type(s) for -: '" ++
        pyTypeName a ++ "' and '" ++ pyTypeName b ++ "'"))

/-- Python `*` (numeric product, tuple repetition). -/
def pyMul : PyVal → PyVal → Except PyErr PyVal
  | .int a, .int b => .ok (.int (a * b))
  | .int a, .float y => do let ea ← intToEF a; .ok (.float (efMul ea y))
  | .float x, .int b => do let eb ← intToEF b; .ok (.float (efMul x eb))
  | .float x, .float y => .ok (.float (efMul x y))
  | .tup, .int _ => .ok .tup
  | .int _, .tup => .ok .tup
  | a, b =>
      .error (.typeErr ("can't multiply sequence by non-int of type '" ++
        pyTypeName a ++ "' and '" ++ pyTypeName b ++ "'"))

/-- Python `/` (true division).  A zero divisor raises
`ZeroDivisionError`; `int / int` is computed exactly and raises
`OverflowError` beyond the double range (CPython: "integer division
result too large for a float"). -/
def pyDiv : PyVal → PyVal → Except PyErr PyVal
  | .tup, b =>
      .error (.typeErr ("unsupported operand type(s) for /: 'tuple' and '" ++
        pyTypeName b ++ "'"))
  | a, .tup =>
      .error (.typeErr ("unsupported operand type(s) for /: '" ++
        pyTypeName a ++ "' and 'tuple'"))
  | _, .int 0 => .error .zeroDiv
  | _, .float (.fin 0) => .error .zeroDiv
  | .int a, .int b =>
      if maxD < (a : ℚ) / (b : ℚ) ∨ (a : ℚ) / (b : ℚ) < -maxD then
        .error (.overflowErr "integer division result too large for a float")
      else .ok (.float (.fin ((a : ℚ) / (b : ℚ))))
  | .int a, .float y => do let ea ← intToEF a; .ok (.float (efDiv ea y))
  | .float x, .int b => do let eb ← intToEF b; .ok (.float (efDiv x eb))
  | .float x, .float y => .ok (.float (efDiv x y))

/-- Python `//` (floor division). -/
def pyFdiv : PyVal → PyVal → Except PyErr PyVal
  | .tup, b =>
      .error (.typeErr ("unsupported operand type(s) for //: 'tuple' and '" ++
        pyTypeName b ++ "'"))
  | a, .tup =>
      .error (.typeErr ("unsupported operand type(s) for //: '" ++
        pyTypeName a ++ "' and 'tuple'"))
  | _, .int 0 => .error .zeroDiv
  | _, .float (.fin 0) => .error .zeroDiv
  | .int a, .int b => .ok (.int (Int.fdiv a b))
  | .int a, .float y => do let ea ← intToEF a; .ok (.float (efFdiv ea y))
  | .float x, .int b => do let eb ← intToEF b; .ok (.float (efFdiv x eb))
  | .float x, .float y => .ok (.float (efFdiv x y))

/-- Python `**`.  `int ** nonneg-int` is exact; a zero base with a
negative exponent raises `ZeroDivisionError`; every other combination
produces a float whose exact value is not modelled (`EF.approx`). -/
def pyPow : PyVal → PyVal → Except PyErr PyVal
  | .tup, b =>
      .error (.typeErr ("unsupported operand type(s) for ** or pow(): 'tuple' and '" ++
        pyTypeName b ++ "'"))
  | a, .tup =>
      .error (.typeErr ("unsupported operand type(s) for ** or pow(): '" ++
        pyTypeName a ++ "' and 'tuple'"))
  | .int a, .int b =>
      if 0 ≤ b then .ok (.int (a ^ b.toNat))
      else if a = 0 then .error .zeroDiv
      else .ok (.float .approx)
  | .int 0, .float (.fin q) =>
      if q < 0 then .error .zeroDiv else .ok (.float .approx)
  | .float (.fin 0), .int b =>
      if b < 0 then .error .zeroDiv else .ok (.float .approx)
  | .float (.fin 0), .float (.fin q) =>
      if q < 0 then .error .zeroDiv else .ok (.float .approx)
  | _, _ => .ok (.float .approx)

/-- Python unary `-`. -/
def pyNegV : PyVal → Except PyErr PyVal
  | .int n => .ok (.int (-n))
  | .float x => .ok (.float (efNegV x))
  | .tup => .error (.typeErr "bad operand type for unary -: 'tuple'")

/-- Python unary `+`. -/
def pyPosV : PyVal → Except PyErr PyVal
  | .int n => .ok (.int n)
  | .float x => .ok (.float x)
  | .tup => .error (.typeErr "bad operand type for unary +: 'tuple'")

/-- Abstract syntax of the Python expression fragment reachable through
the character whitelist. -/
inductive PyExpr
  | num (v : PyVal)
  | unit
  | neg (e : PyExpr)
  | pos (e : PyExpr)
  | add (a b : PyExpr)
  | sub (a b : PyExpr)
  | mul (a b : PyExpr)
  | div (a b : PyExpr)
  | fdiv (a b : PyExpr)
  | pow (a b : PyExpr)
  | call (f : PyExpr) (arg : Option PyExpr)
deriving Repr

/-- Evaluation of a parsed expression, left to right, with Python's
runtime exceptions.  Calling a value always raises `TypeError` after
evaluating callee and argument (no reachable value is callable). -/
def evalAst : PyExpr → Except PyErr PyVal
  | .num v => .ok v
  | .unit => .ok .tup
  | .neg e => do let v ← evalAst e; pyNegV v
  | .pos e => do let v ← evalAst e; pyPosV v
  | .add a b => do let va ← evalAst a; let vb ← evalAst b; pyAdd va vb
  | .sub a b => do let va ← evalAst a; let vb ← evalAst b; pySub va vb
  | .mul a b => do let va ← evalAst a; let vb ← evalAst b; pyMul va vb
  | .div a b => do let va ← evalAst a; let vb ← evalAst b; pyDiv va vb
  | .fdiv a b => do let va ← evalAst a; let vb ← evalAst b; pyFdiv va vb
  | .pow a b => do let va ← evalAst a; let vb ← evalAst b; pyPow va vb
  | .call f arg => do
      let vf ← evalAst f
      match arg with
      | some a => do
          let _ ← evalAst a
          .error (.typeErr ("'" ++ pyTypeName vf ++ "' object is not callable"))
      | none =>
          .error (.typeErr ("'" ++ pyTypeName vf ++ "' object is not callable"))

/-- The character whitelist from the source:
`allowed_chars = set('0123456789+-*/.() ')`. -/
def allowedChar (c : Char) : Bool :=
  c.isDigit || c = '+' || c = '-' || c = '*' || c = '/' || c = '.' ||
    c = '(' || c = ')' || c = ' '

/-- Tokens of the whitelisted fragment.  Adjacent `**` and `//` are
single tokens (maximal munch), as in Python's tokenizer. -/
inductive Tok
  | num (v : PyVal)
  | plus
  | minus
  | star
  | slash
  | dstar
  | dslash
  | lparen
  | rparen
deriving DecidableEq, Repr

/-- Integer value of a digit string. -/
def digitsToInt (ds : List Char) : ℤ :=
  ds.foldl (fun acc c => acc * 10 + ((c.toNat : ℤ) - 48)) 0

/-- Value of a float literal with integer part `ip` and fractional part
`fp` (exact; `mkEF` applies the double-range overflow). -/
def litVal (ip fp : List Char) : ℚ :=
  (digitsToInt (ip ++ fp) : ℚ) / ((Nat.pow 10 fp.length : ℕ) : ℚ)

/-- Fueled tokenizer over the whitelisted alphabet.  Mirrors Python's
tokenizer on this fragment: spaces are skipped, `**`/`//` munch two
characters, numeric literals are `d+`, `d+.d*`, `.d+` (a lone `.` is a
syntax error), and an integer literal with a leading zero and a nonzero
digit is rejected (Python 3 forbids leading zeros in decimal integers).
Any character outside the whitelist fails the tokenizer. -/
def tokChars : Nat → List Char → Option (List Tok)
  | 0, _ => none
  | _ + 1, [] => some []
  | f + 1, c :: cs =>
    if c = ' ' then tokChars f cs
    else if c = '+' then (tokChars f cs).map (Tok.plus :: ·)
    else if c = '-' then (tokChars f cs).map (Tok.minus :: ·)
    else if c = '(' then (tokChars f cs).map (Tok.lparen :: ·)
    else if c = ')' then (tokChars f cs).map (Tok.rparen :: ·)
    else if c = '*' then
      match cs with
      | '*' :: cs1 => (tokChars f cs1).map (Tok.dstar :: ·)
      | _ => (tokChars f cs).map (Tok.star :: ·)
    else if c = '/' then
      match cs with
      | '/' :: cs1 => (tokChars f cs1).map (Tok.dslash :: ·)
      | _ => (tokChars f cs).map (Tok.slash :: ·)
    else if c.isDigit ∨ c = '.' then
      let ip := (c :: cs).takeWhile Char.isDigit
      let r1 := (c :: cs).dropWhile Char.isDigit
      match r1 with
      | '.' :: r2 =>
        let fp := r2.takeWhile Char.isDigit
        let r3 := r2.dropWhile Char.isDigit
        if ip.isEmpty && fp.isEmpty then none
        else (tokChars f r3).map (Tok.num (.float (mkEF (litVal ip fp))) :: ·)
      | _ =>
        if ip.head? = some '0' && ip.any (· != '0') then none
        else (tokChars f r1).map (Tok.num (.int (digitsToInt ip)) :: ·)
    else none

/-- Tokenize a string (`none` models `SyntaxError`). -/
def tokenize (s : String) : Option (List Tok) :=
  tokChars (s.data.length + 1) s.data

/-- Parser levels, innermost last.  `lEloop`/`lTloop`/`lTrail` carry the
expression accumulated so far by the corresponding left-recursive
loop.  `lTrail` (call trailers) is used only by the Python parser. -/
inductive Lvl
  | lE
  | lEloop (a : PyExpr)
  | lT
  | lTloop (a : PyExpr)
  | lU
  | lPow
  | lAtomT
  | lTrail (a : PyExpr)
  | lAtom

/-- Fueled recursive-descent parser for the Python expression grammar
restricted to the whitelisted tokens:

    E     := T {(+|-) T}
    T     := U {(*|/|//) U}
    U     := (+|-) U | Pow
    Pow   := AtomT [** U]
    AtomT := Atom {( [E] )}          -- call trailers
    Atom  := NUMBER | ( ) | ( E )

Every recursive call burns one unit of fuel. -/
def pyP : Nat → Lvl → List Tok → Option (PyExpr × List Tok)
  | 0, _, _ => none
  | f + 1, .lE, ts =>
    match pyP f .lT ts with
    | some (a, r) => pyP f (.lEloop a) r
    | none => none
  | f + 1, .lEloop a, ts =>
    match ts with
    | .plus :: ts1 =>
      match pyP f .lT ts1 with
      | some (b, r) => pyP f (.lEloop (.add a b)) r
      | none => none
    | .minus :: ts1 =>
      match pyP f .lT ts1 with
      | some (b, r) => pyP f (.lEloop (.sub a b)) r
      | none => none
    | _ => some (a, ts)
  | f + 1, .lT, ts =>
    match pyP f .lU ts with
    | some (a, r) => pyP f (.lTloop a) r
    | none => none
  | f + 1, .lTloop a, ts =>
    match ts with
    | .star :: ts1 =>
      match pyP f .lU ts1 with
      | some (b, r) => pyP f (.lTloop (.mul a b)) r
      | none => none
    | .slash :: ts1 =>
      match pyP f .lU ts1 with
      | some (b, r) => pyP f (.lTloop (.div a b)) r
      | none => none
    | .dslash :: ts1 =>
      match pyP f .lU ts1 with
      | some (b, r) => pyP f (.lTloop (.fdiv a b)) r
      | none => none
    | _ => some (a, ts)
  | f + 1, .lU, ts =>
    match ts with
    | .minus :: ts1 => (pyP f .lU ts1).map (fun p => (.neg p.1, p.2))
    | .plus :: ts1 => (pyP f .lU ts1).map (fun p => (.pos p.1, p.2))
    | _ => pyP f .lPow ts
  | f + 1, .lPow, ts =>
    match pyP f .lAtomT ts with
    | some (a, .dstar :: r1) => (pyP f .lU r1).map (fun p => (.pow a p.1, p.2))
    | some (a, r) => some (a, r)
    | none => none
  | f + 1, .lAtomT, ts =>
    match pyP f .lAtom ts with
    | some (a, r) => pyP f (.lTrail a) r
    | none => none
  | f + 1, .lTrail a, ts =>
    match ts with
    | .lparen :: .rparen :: ts1 => pyP f (.lTrail (.call a none)) ts1
    | .lparen :: ts1 =>
      match pyP f .lE ts1 with
      | some (b, .rparen :: r1) => pyP f (.lTrail (.call a (some b))) r1
      | _ => none
    | _ => some (a, ts)
  | f + 1, .lAtom, ts =>
    match ts with
    | .num v :: ts1 => some (.num v, ts1)
    | .lparen :: .rparen :: ts1 => some (.unit, ts1)
    | .lparen :: ts1 =>
      match pyP f .lE ts1 with
      | some (a, .rparen :: r1) => some (a, r1)
      | _ => none
    | _ => none

/-- Fuel sufficient for any token list: at most eight parser calls occur
per consumed token on any path. -/
def fuelFor (ts : List Tok) : Nat := 8 * (ts.length + 1)

/-- Python parse of a full token list (the whole list must be consumed). -/
def pyParseToks (ts : List Tok) : Option PyExpr :=
  match pyP (fuelFor ts) .lE ts with
  | some (a, []) => some a
  | _ => none

/-- The model of `eval(expression)` on a whitelisted string: tokenize,
parse (failure of either is Python's `SyntaxError`, raised before any
evaluation), then evaluate. -/
def pyEvalStr (s : String) : Except PyErr PyVal :=
  match tokenize s with
  | none => .error .synErr
  | some ts =>
    match pyParseToks ts with
    | some a => evalAst a
    | none => .error .synErr

/-- Modelled from the spec: recursive-descent parser for the spec's
arithmetic grammar — decimal literals, the four binary operators
`+ - * /` with `*`,`/` binding tighter than `+`,`-`, unary minus, and
parentheses (spec §4 step 3, §9).  It shares the token type and fuel
discipline with `pyP` (the pass-through levels `lPow`/`lAtomT` parse
nothing) but accepts none of the Python-only constructs: no `**`, no
`//`, no unary `+`, no `()`, no call trailers. -/
def sP : Nat → Lvl → List Tok → Option (PyExpr × List Tok)
  | 0, _, _ => none
  | f + 1, .lE, ts =>
    match sP f .lT ts with
    | some (a, r) => sP f (.lEloop a) r
    | none => none
  | f + 1, .lEloop a, ts =>
    match ts with
    | .plus :: ts1 =>
      match sP f .lT ts1 with
      | some (b, r) => sP f (.lEloop (.add a b)) r
      | none => none
    | .minus :: ts1 =>
      match sP f .lT ts1 with
      | some (b, r) => sP f (.lEloop (.sub a b)) r
      | none => none
    | _ => some (a, ts)
  | f + 1, .lT, ts =>
    match sP f .lU ts with
    | some (a, r) => sP f (.lTloop a) r
    | none => none
  | f + 1, .lTloop a, ts =>
    match ts with
    | .star :: ts1 =>
      match sP f .lU ts1 with
      | some (b, r) => sP f (.lTloop (.mul a b)) r
      | none => none
    | .slash :: ts1 =>
      match sP f .lU ts1 with
      | some (b, r) => sP f (.lTloop (.div a b)) r
      | none => none
    | _ => some (a, ts)
  | f + 1, .lU, ts =>
    match ts with
    | .minus :: ts1 => (sP f .lU ts1).map (fun p => (.neg p.1, p.2))
    | _ => sP f .lPow ts
  | f + 1, .lPow, ts => sP f .lAtomT ts
  | f + 1, .lAtomT, ts => sP f .lAtom ts
  | _ + 1, .lTrail _, _ => none
  | f + 1, .lAtom, ts =>
    match ts with
    | .num v :: ts1 => some (.num v, ts1)
    | .lparen :: ts1 =>
      match sP f .lE ts1 with
      | some (a, .rparen :: r1) => some (a, r1)
      | _ => none
    | _ => none

/-- Token-list heads on which the Python parser would consume further
tokens where the spec parser stops: a following `**`, `//`, or call
parenthesis.  A remainder with any other head is treated identically by
both parsers. -/
def badHead : List Tok → Bool
  | .dstar :: _ => true
  | .dslash :: _ => true
  | .lparen :: _ => true
  | _ => false

/-- Heads that can start an atom of the spec grammar. -/
def atomStart : List Tok → Bool
  | .num _ :: _ => true
  | .lparen :: _ => true
  | _ => false

/-- Heads that can start an expression of the spec grammar. -/
def exprStart : List Tok → Bool
  | .num _ :: _ => true
  | .lparen :: _ => true
  | .minus :: _ => true
  | _ => false

/-- Spec-grammar parse of a full token list. -/
def specParseToks (ts : List Tok) : Option PyExpr :=
  match sP (fuelFor ts) .lE ts with
  | some (a, []) => some a
  | _ => none

/-- Modelled from the spec: a string is a well-formed arithmetic
expression exactly when it tokenizes and parses under the spec
grammar. -/
def specWF (s : String) : Bool :=
  ((tokenize s).bind specParseToks).isSome

/-- Modelled from the spec: evaluation outcome of a well-formed
arithmetic expression (`none` when not well-formed). -/
def specEvalStr (s : String) : Option (Except PyErr PyVal) :=
  ((tokenize s).bind specParseToks).map evalAst

/-- A parsed JSON value, as produced by `request.get_json()`.  An `obj`
models a Python dict (keys distinct, as produced by the JSON parser). -/
inductive JVal
  | str (s : String)
  | num (q : ℚ)
  | bool (b : Bool)
  | null
  | arr (xs : List JVal)
  | obj (kvs : List (String × JVal))

/-- Python type name of a JSON value (JSON numbers with integral value
parse to `int`, others to `float`). -/
def jTypeName : JVal → String
  | .str _ => "str"
  | .num q => if q.den = 1 then "int" else "float"
  | .bool _ => "bool"
  | .null => "NoneType"
  | .arr _ => "list"
  | .obj _ => "dict"

/-- Python truthiness (`not expression` in the source). -/
def pyFalsy : JVal → Bool
  | .str s => s == ""
  | .num q => q == 0
  | .bool b => !b
  | .null => true
  | .arr xs => xs.isEmpty
  | .obj kvs => kvs.isEmpty

/-- Iteration (`for c in expression`): strings yield their characters as
one-character strings, lists their elements, dicts their keys; other
values raise `TypeError` (returned as `none`). -/
def pyIterItems : JVal → Option (List JVal)
  | .str s => some (s.data.map (fun c => .str (String.singleton c)))
  | .arr xs => some xs
  | .obj kvs => some (kvs.map (fun kv => .str kv.1))
  | _ => none

/-- Membership of one item in `allowed_chars` (a Python *set* of
one-character strings): a string is a member exactly when it is a
single whitelisted character; other hashable values are simply not
members; unhashable values raise `TypeError`. -/
def memberAllowed : JVal → Except String Bool
  | .str s =>
    match s.data with
    | [c] => .ok (allowedChar c)
    | _ => .ok false
  | .arr _ => .error "unhashable type: 'list'"
  | .obj _ => .error "unhashable type: 'dict'"
  | _ => .ok false

/-- `all(c in allowed_chars for c in expression)`, short-circuiting at
the first non-member as Python's `all` does. -/
def allWhitelisted : List JVal → Except String Bool
  | [] => .ok true
  | i :: rest =>
    match memberAllowed i with
    | .error m => .error m
    | .ok true => allWhitelisted rest
    | .ok false => .ok false

/-- `eval(expression)`: evaluates a string; any other value raises
`TypeError` (caught by the inner `except Exception`). -/
def pyEvalJ : JVal → Except PyErr PyVal
  | .str s => pyEvalStr s
  | _ => .error (.typeErr "eval() arg 1 must be a string, bytes or code object")

/-- Outcome of one request to `calculate`: a successful value (returned
as `jsonify({'result': ...})`, status 200) or a failure message with an
explicit status code. -/
inductive COut
  | ok (v : PyVal)
  | fail (msg : String) (code : Nat)

/-- The inner `try` block around `eval`, lines 30-41 of the source:
`ZeroDivisionError` → "Division by zero" 400; an `isinstance(result,
float)` result equal to `float('inf')` or `float('-inf')` → "Division
by zero" 400; `SyntaxError` → "Invalid expression syntax" 400; any
other exception → its message, 400. -/
def evalOut : Except PyErr PyVal → COut
  | .error .zeroDiv => .fail "Division by zero" 400
  | .error .synErr => .fail "Invalid expression syntax" 400
  | .error (.typeErr m) => .fail m 400
  | .error (.overflowErr m) => .fail m 400
  | .ok v =>
    if v = .float .inf ∨ v = .float .ninf then .fail "Division by zero" 400
    else .ok v

/-- Message of the exception raised by `request.get_json()` on an
unparseable body (re-raised inside the outer `try`). -/
def badBodyMsg : String :=
  "400 Bad Request: The browser (or proxy) sent a request that this server could not understand."

/-- The body of the `calculate` handler (source lines 17-44).  The input
is the parsed request body (`none` when `request.get_json()` raises).
Each `.fail` corresponds to one `return jsonify({'error': ...}), code`
in the source; exceptions reaching the outer `except Exception` become
`'Server error: ' + str(e)` with status 500. -/
def calcCore : Option JVal → COut
  | none => .fail ("Server error: " ++ badBodyMsg) 500
  | some data =>
    match data with
    | .obj kvs =>
      let expression := (List.lookup "expression" kvs).getD (.str "")
      if pyFalsy expression then .fail "Empty expression" 400
      else
        match pyIterItems expression with
        | none =>
          .fail ("Server error: '" ++ jTypeName expression ++ "' object is not iterable") 500
        | some items =>
          match allWhitelisted items with
          | .error m => .fail ("Server error: " ++ m) 500
          | .ok false => .fail "Invalid characters in expression" 400
          | .ok true => evalOut (pyEvalJ expression)
    | other =>
      .fail ("Server error: '" ++ jTypeName other ++ "' object has no attribute 'get'") 500

/-- One entry of a JSON response body: a computed value or fixed text. -/
inductive JOut
  | val (v : PyVal)
  | text (s : String)
deriving DecidableEq, Repr

/-- An HTTP response: status code and JSON object body (key/value
pairs). -/
structure Resp where
  status : Nat
  body : List (String × JOut)
deriving DecidableEq, Repr

/-- Serialize an outcome: `{'result': v}` with status 200 on success,
`{'error': msg}` with the failure's status code otherwise. -/
def finish : COut → Resp
  | .ok v => ⟨200, [("result", .val v)]⟩
  | .fail m c => ⟨c, [("error", .text m)]⟩

/-- `POST /calculate` on a parsed request body. -/
def calculate (b : Option JVal) : Resp := finish (calcCore b)

/-- `GET /health` (source lines 46-49): unconditionally
`{'status': 'healthy'}` with status 200; takes no input. -/
def health : Unit → Resp := fun _ => ⟨200, [("status", .text "healthy")]⟩

/-- The decimal literal `10^309.0` (a `1`, 309 zeros, then `.0`): a
well-formed float literal whose value exceeds the double range, so
Python evaluates it to `inf`. -/
def bigFloatLit : String := "1" ++ String.mk (List.replicate 309 '0') ++ ".0"

/-- `bigFloatLit - bigFloatLit`, which Python evaluates to
`inf - inf = nan`. -/
def nanExpr : String := bigFloatLit ++ "-" ++ bigFloatLit

set_option maxRecDepth 100000

/-! ## Correspondence of the spec grammar with the Python parser -/

theorem sP_exitEloop (g : Nat) (a : PyExpr) (ts : List Tok) (h : badHead ts = true) :
    sP (g + 1) (.lEloop a) ts = some (a, ts) := by
  cases ts with
  | nil => simp [badHead] at h
  | cons t ts1 => cases t <;> simp_all [badHead, sP]

theorem sP_exitTloop (g : Nat) (a : PyExpr) (ts : List Tok) (h : badHead ts = true) :
    sP (g + 1) (.lTloop a) ts = some (a, ts) := by
  cases ts with
  | nil => simp [badHead] at h
  | cons t ts1 => cases t <;> simp_all [badHead, sP]

theorem pyP_exitTrail (f : Nat) (hf : f ≠ 0) (a : PyExpr) (ts : List Tok)
    (h : badHead ts = false) : pyP f (.lTrail a) ts = some (a, ts) := by
  obtain ⟨g, rfl⟩ := Nat.exists_eq_succ_of_ne_zero hf
  cases ts with
  | nil => simp [pyP]
  | cons t ts1 => cases t <;> simp_all [badHead, pyP]

theorem sP_goodEloop (f : Nat) (a1 : PyExpr) (r1 : List Tok) (a : PyExpr) (r : List Tok)
    (h : sP f (.lEloop a1) r1 = some (a, r)) (hbad : badHead r = false) :
    badHead r1 = false := by
  cases hb : badHead r1 with
  | false => rfl
  | true =>
    cases f with
    | zero => simp [sP] at h
    | succ g =>
      rw [sP_exitEloop g a1 r1 hb] at h
      simp only [Option.some.injEq, Prod.mk.injEq] at h
      obtain ⟨rfl, rfl⟩ := h
      rw [hb] at hbad
      exact absurd hbad (by simp)

theorem sP_goodTloop (f : Nat) (a1 : PyExpr) (r1 : List Tok) (a : PyExpr) (r : List Tok)
    (h : sP f (.lTloop a1) r1 = some (a, r)) (hbad : badHead r = false) :
    badHead r1 = false := by
  cases hb : badHead r1 with
  | false => rfl
  | true =>
    cases f with
    | zero => simp [sP] at h
    | succ g =>
      rw [sP_exitTloop g a1 r1 hb] at h
      simp only [Option.some.injEq, Prod.mk.injEq] at h
      obtain ⟨rfl, rfl⟩ := h
      rw [hb] at hbad
      exact absurd hbad (by simp)

theorem sP_pyP_corr : ∀ f : Nat,
    (∀ ts, atomStart ts = false →
        sP f .lPow ts = none ∧ sP f .lAtomT ts = none ∧ sP f .lAtom ts = none)
    ∧ (∀ ts, exprStart ts = false →
        sP f .lE ts = none ∧ sP f .lT ts = none ∧ sP f .lU ts = none)
    ∧ (∀ l ts a r, sP f l ts = some (a, r) → badHead r = false →
        pyP f l ts = some (a, r)) := by
  intro f
  induction f with
  | zero =>
    refine ⟨fun ts _ => ⟨rfl, rfl, rfl⟩, fun ts _ => ⟨rfl, rfl, rfl⟩, ?_⟩
    intro l ts a r h
    simp [sP] at h
  | succ f ih =>
    obtain ⟨ihB1, ihB2, ihA⟩ := ih
    have hAS : ∀ ts, exprStart ts = false → atomStart ts = false := by
      intro ts h
      cases ts with
      | nil => rfl
      | cons t ts1 => cases t <;> simp_all [exprStart, atomStart]
    refine ⟨?_, ?_, ?_⟩
    · intro ts h
      refine ⟨?_, ?_, ?_⟩
      · simpa [sP] using (ihB1 ts h).2.1
      · simpa [sP] using (ihB1 ts h).2.2
      · cases ts with
        | nil => simp [sP]
        | cons t ts1 => cases t <;> simp_all [atomStart, sP]
    · intro ts h
      refine ⟨?_, ?_, ?_⟩
      · simp [sP, (ihB2 ts h).2.1]
      · simp [sP, (ihB2 ts h).2.2]
      · cases ts with
        | nil => simpa [sP] using (ihB1 [] (hAS [] h)).1
        | cons t ts1 =>
          cases t <;> simp_all [exprStart, sP]
    · intro l ts a r h hbad
      cases l with
      | lE =>
        simp only [sP] at h
        cases hT : sP f .lT ts with
        | none => simp [hT] at h
        | some p =>
          obtain ⟨a1, r1⟩ := p
          simp only [hT] at h
          have hb1 := sP_goodEloop f a1 r1 a r h hbad
          have h1 := ihA .lT ts a1 r1 hT hb1
          have h2 := ihA (.lEloop a1) r1 a r h hbad
          simp [pyP, h1, h2]
      | lEloop a0 =>
        cases ts with
        | nil =>
          simp [sP] at h
          obtain ⟨rfl, rfl⟩ := h
          simp [pyP]
        | cons t ts1 =>
          cases t with
          | plus =>
            simp only [sP] at h
            cases hT : sP f .lT ts1 with
            | none => simp [hT] at h
            | some p =>
              obtain ⟨b, r1⟩ := p
              simp only [hT] at h
              have hb1 := sP_goodEloop f (a0.add b) r1 a r h hbad
              have h1 := ihA .lT ts1 b r1 hT hb1
              have h2 := ihA (.lEloop (a0.add b)) r1 a r h hbad
              simp [pyP, h1, h2]
          | minus =>
            simp only [sP] at h
            cases hT : sP f .lT ts1 with
            | none => simp [hT] at h
            | some p =>
              obtain ⟨b, r1⟩ := p
              simp only [hT] at h
              have hb1 := sP_goodEloop f (a0.sub b) r1 a r h hbad
              have h1 := ihA .lT ts1 b r1 hT hb1
              have h2 := ihA (.lEloop (a0.sub b)) r1 a r h hbad
              simp [pyP, h1, h2]
          | num v => simp_all [sP, pyP]
          | star => simp_all [sP, pyP]
          | slash => simp_all [sP, pyP]
          | dstar =>
            simp only [sP, Option.some.injEq, Prod.mk.injEq] at h
            obtain ⟨rfl, rfl⟩ := h
            simp [badHead] at hbad
          | dslash =>
            simp only [sP, Option.some.injEq, Prod.mk.injEq] at h
            obtain ⟨rfl, rfl⟩ := h
            simp [badHead] at hbad
          | lparen =>
            simp only [sP, Option.some.injEq, Prod.mk.injEq] at h
            obtain ⟨rfl, rfl⟩ := h
            simp [badHead] at hbad
          | rparen => simp_all [sP, pyP]
      | lT =>
        simp only [sP] at h
        cases hU : sP f .lU ts with
        | none => simp [hU] at h
        | some p =>
          obtain ⟨a1, r1⟩ := p
          simp only [hU] at h
          have hb1 := sP_goodTloop f a1 r1 a r h hbad
          have h1 := ihA .lU ts a1 r1 hU hb1
          have h2 := ihA (.lTloop a1) r1 a r h hbad
          simp [pyP, h1, h2]
      | lTloop a0 =>
        cases ts with
        | nil =>
          simp [sP] at h
          obtain ⟨rfl, rfl⟩ := h
          simp [pyP]
        | cons t ts1 =>
          cases t with
          | star =>
            simp only [sP] at h
            cases hU : sP f .lU ts1 with
            | none => simp [hU] at h
            | some p =>
              obtain ⟨b, r1⟩ := p
              simp only [hU] at h
              have hb1 := sP_goodTloop f (a0.mul b) r1 a r h hbad
              have h1 := ihA .lU ts1 b r1 hU hb1
              have h2 := ihA (.lTloop (a0.mul b)) r1 a r h hbad
              simp [pyP, h1, h2]
          | slash =>
            simp only [sP] at h
            cases hU : sP f .lU ts1 with
            | none => simp [hU] at h
            | some p =>
              obtain ⟨b, r1⟩ := p
              simp only [hU] at h
              have hb1 := sP_goodTloop f (a0.div b) r1 a r h hbad
              have h1 := ihA .lU ts1 b r1 hU hb1
              have h2 := ihA (.lTloop (a0.div b)) r1 a r h hbad
              simp [pyP, h1, h2]
          | num v => simp_all [sP, pyP]
          | plus => simp_all [sP, pyP]
          | minus => simp_all [sP, pyP]
          | dstar =>
            simp only [sP, Option.some.injEq, Prod.mk.injEq] at h
            obtain ⟨rfl, rfl⟩ := h
            simp [badHead] at hbad
          | dslash =>
            simp only [sP, Option.some.injEq, Prod.mk.injEq] at h
            obtain ⟨rfl, rfl⟩ := h
            simp [badHead] at hbad
          | lparen =>
            simp only [sP, Option.some.injEq, Prod.mk.injEq] at h
            obtain ⟨rfl, rfl⟩ := h
            simp [badHead] at hbad
          | rparen => simp_all [sP, pyP]
      | lU =>
        cases ts with
        | nil =>
          rw [show sP (f + 1) .lU [] = sP f .lPow [] from rfl] at h
          rw [(ihB1 [] rfl).1] at h
          exact absurd h (by simp)
        | cons t ts1 =>
          cases t with
          | minus =>
            simp only [sP] at h
            cases hU : sP f .lU ts1 with
            | none => simp [hU] at h
            | some p =>
              obtain ⟨a1, r1⟩ := p
              simp only [hU, Option.map, Option.some.injEq, Prod.mk.injEq] at h
              obtain ⟨rfl, rfl⟩ := h
              have h1 := ihA .lU ts1 a1 r1 hU hbad
              simp [pyP, h1]
          | plus =>
            rw [show sP (f + 1) .lU (.plus :: ts1) = sP f .lPow (.plus :: ts1) from rfl] at h
            rw [(ihB1 (.plus :: ts1) rfl).1] at h
            exact absurd h (by simp)
          | num v =>
            rw [show sP (f + 1) .lU (.num v :: ts1) = sP f .lPow (.num v :: ts1) from rfl] at h
            have h1 := ihA .lPow (.num v :: ts1) a r h hbad
            simp [pyP, h1]
          | star =>
            rw [show sP (f + 1) .lU (.star :: ts1) = sP f .lPow (.star :: ts1) from rfl] at h
            rw [(ihB1 (.star :: ts1) rfl).1] at h
            exact absurd h (by simp)
          | slash =>
            rw [show sP (f + 1) .lU (.slash :: ts1) = sP f .lPow (.slash :: ts1) from rfl] at h
            rw [(ihB1 (.slash :: ts1) rfl).1] at h
            exact absurd h (by simp)
          | dstar =>
            rw [show sP (f + 1) .lU (.dstar :: ts1) = sP f .lPow (.dstar :: ts1) from rfl] at h
            rw [(ihB1 (.dstar :: ts1) rfl).1] at h
            exact absurd h (by simp)
          | dslash =>
            rw [show sP (f + 1) .lU (.dslash :: ts1) = sP f .lPow (.dslash :: ts1) from rfl] at h
            rw [(ihB1 (.dslash :: ts1) rfl).1] at h
            exact absurd h (by simp)
          | lparen =>
            rw [show sP (f + 1) .lU (.lparen :: ts1) = sP f .lPow (.lparen :: ts1) from rfl] at h
            have h1 := ihA .lPow (.lparen :: ts1) a r h hbad
            simp [pyP, h1]
          | rparen =>
            rw [show sP (f + 1) .lU (.rparen :: ts1) = sP f .lPow (.rparen :: ts1) from rfl] at h
            rw [(ihB1 (.rparen :: ts1) rfl).1] at h
            exact absurd h (by simp)
      | lPow =>
        rw [show sP (f + 1) .lPow ts = sP f .lAtomT ts from rfl] at h
        have h1 := ihA .lAtomT ts a r h hbad
        have hres : pyP (f + 1) .lPow ts = some (a, r) := by
          simp only [pyP, h1]
          cases r with
          | nil => rfl
          | cons t r1 => cases t <;> simp_all [badHead]
        exact hres
      | lAtomT =>
        rw [show sP (f + 1) .lAtomT ts = sP f .lAtom ts from rfl] at h
        have h1 := ihA .lAtom ts a r h hbad
        have hf : f ≠ 0 := by
          intro hf0
          rw [hf0] at h
          simp [sP] at h
        have h2 := pyP_exitTrail f hf a r hbad
        simp [pyP, h1, h2]
      | lTrail a0 => simp [sP] at h
      | lAtom =>
        cases ts with
        | nil => simp [sP] at h
        | cons t ts1 =>
          cases t with
          | num v =>
            simp [sP] at h
            obtain ⟨rfl, rfl⟩ := h
            simp [pyP]
          | lparen =>
            simp only [sP] at h
            cases hE : sP f .lE ts1 with
            | none => simp [hE] at h
            | some p =>
              obtain ⟨a1, rr⟩ := p
              simp only [hE] at h
              cases rr with
              | nil => simp at h
              | cons t2 rr1 =>
                cases t2 <;> try simp at h
                case rparen =>
                  obtain ⟨rfl, rfl⟩ := h
                  have h1 := ihA .lE ts1 a1 (.rparen :: rr1) hE rfl
                  cases ts1 with
                  | nil => rw [(ihB2 [] rfl).1] at hE; exact absurd hE (by simp)
                  | cons t3 ts2 =>
                    cases t3 with
                    | rparen =>
                      rw [(ihB2 (.rparen :: ts2) rfl).1] at hE
                      exact absurd hE (by simp)
                    | num v => simp [pyP, h1]
                    | plus => simp [pyP, h1]
                    | minus => simp [pyP, h1]
                    | star => simp [pyP, h1]
                    | slash => simp [pyP, h1]
                    | dstar => simp [pyP, h1]
                    | dslash => simp [pyP, h1]
                    | lparen => simp [pyP, h1]
          | plus => simp [sP] at h
          | minus => simp [sP] at h
          | star => simp [sP] at h
          | slash => simp [sP] at h
          | dstar => simp [sP] at h
          | dslash => simp [sP] at h
          | rparen => simp [sP] at h

theorem specParse_pyParse (ts : List Tok) (a : PyExpr)
    (h : specParseToks ts = some a) : pyParseToks ts = some a := by
  unfold specParseToks at h
  cases hs : sP (fuelFor ts) .lE ts with
  | none => rw [hs] at h; simp at h
  | some p =>
    obtain ⟨a1, r⟩ := p
    rw [hs] at h
    cases r with
    | nil =>
      simp only [Option.some.injEq] at h
      subst h
      have hc := (sP_pyP_corr (fuelFor ts)).2.2 .lE ts a1 [] hs rfl
      unfold pyParseToks
      rw [hc]
    | cons t r1 => simp at h

theorem specEval_pyEval (s : String) (out : Except PyErr PyVal)
    (h : specEvalStr s = some out) : pyEvalStr s = out := by
  unfold specEvalStr at h
  cases ht : tokenize s with
  | none => rw [ht] at h; simp at h
  | some ts =>
    rw [ht] at h
    simp only [Option.bind_some, Option.map_eq_some'] at h
    obtain ⟨a, hp, rfl⟩ := h
    have hpy := specParse_pyParse ts a hp
    simp only [pyEvalStr, ht, hpy]

theorem allWhitelisted_chars (cs : List Char) :
    allWhitelisted (cs.map (fun c => JVal.str (String.singleton c))) =
      .ok (cs.all allowedChar) := by
  have hm : ∀ c : Char, memberAllowed (.str (String.singleton c)) = .ok (allowedChar c) := by
    intro c
    simp [memberAllowed, String.singleton, String.push]
  induction cs with
  | nil => rfl
  | cons c cs ih =>
    simp only [List.map_cons, allWhitelisted, hm]
    cases hc : allowedChar c <;> simp [List.all_cons, hc, ih]

theorem calculate_eval (kvs : List (String × JVal)) (e : String)
    (hl : List.lookup "expression" kvs = some (.str e))
    (hne : e ≠ "") (hw : e.data.all allowedChar = true) :
    calculate (some (.obj kvs)) = finish (evalOut (pyEvalStr e)) := by
  have hfalsy : pyFalsy (.str e) = false := by
    simp [pyFalsy]
    exact hne
  unfold calculate calcCore
  simp only [hl, Option.getD_some, hfalsy, Bool.false_eq_true, if_false, pyIterItems,
    allWhitelisted_chars, hw, pyEvalJ]

theorem calcCore_fail_code (b : Option JVal) (m : String) (c : Nat)
    (h : calcCore b = .fail m c) : c = 400 ∨ c = 500 := by
  rcases b with _ | d
  · simp only [calcCore, COut.fail.injEq] at h
    exact Or.inr h.2.symm
  · cases d with
    | obj kvs =>
      simp only [calcCore] at h
      split at h
      · simp only [COut.fail.injEq] at h
        exact Or.inl h.2.symm
      · split at h
        · simp only [COut.fail.injEq] at h
          exact Or.inr h.2.symm
        · split at h
          · simp only [COut.fail.injEq] at h
            exact Or.inr h.2.symm
          · simp only [COut.fail.injEq] at h
            exact Or.inl h.2.symm
          · unfold evalOut at h
            split at h
            · simp only [COut.fail.injEq] at h
              exact Or.inl h.2.symm
            · simp only [COut.fail.injEq] at h
              exact Or.inl h.2.symm
            · simp only [COut.fail.injEq] at h
              exact Or.inl h.2.symm
            · simp only [COut.fail.injEq] at h
              exact Or.inl h.2.symm
            · split at h
              · simp only [COut.fail.injEq] at h
                exact Or.inl h.2.symm
              · exact absurd h (by simp)
    | str s =>
      simp only [calcCore, COut.fail.injEq] at h
      exact Or.inr h.2.symm
    | num q =>
      simp only [calcCore, COut.fail.injEq] at h
      exact Or.inr h.2.symm
    | bool x =>
      simp only [calcCore, COut.fail.injEq] at h
      exact Or.inr h.2.symm
    | null =>
      simp only [calcCore, COut.fail.injEq] at h
      exact Or.inr h.2.symm
    | arr xs =>
      simp only [calcCore, COut.fail.injEq] at h
      exact Or.inr h.2.symm

/-! ## The claims -/

/-- C1: for every request whose JSON-object body has an `expression`
field holding a string with at least one character outside the
whitelist `{0-9, +, -, *, /, ., (, ), space}`, the endpoint returns
status 400 with the `InvalidCharacters` error (`'Invalid characters in
expression'`); the whitelist branch returns before `eval` is ever
reached, so the expression is never evaluated. -/
theorem claim_C1 (kvs : List (String × JVal)) (e : String)
    (hl : List.lookup "expression" kvs = some (.str e))
    (hbadc : ∃ c ∈ e.data, allowedChar c = false) :
    calculate (some (.obj kvs)) =
      ⟨400, [("error", .text "Invalid characters in expression")]⟩ := by
  obtain ⟨c, hc, hcf⟩ := hbadc
  have hne : e ≠ "" := by
    intro he
    rw [he] at hc
    simp at hc
  have hfalsy : pyFalsy (.str e) = false := by
    simp [pyFalsy]
    exact hne
  have hall : e.data.all allowedChar = false := by
    rw [List.all_eq_false]
    exact ⟨c, hc, by simp [hcf]⟩
  unfold calculate calcCore
  simp only [hl, Option.getD_some, hfalsy, Bool.false_eq_true, if_false, pyIterItems,
    allWhitelisted_chars, hall, finish]

/-- C1 witness: the expression `"2a"` contains the non-whitelisted
character `a` and is rejected with 400 `InvalidCharacters`. -/
theorem claim_C1_witness :
    calculate (some (.obj [("expression", .str "2a")])) =
      ⟨400, [("error", .text "Invalid characters in expression")]⟩ :=
  claim_C1 [("expression", .str "2a")] "2a" rfl ⟨'a', by decide, by decide⟩

/-- C2 counterexample: the expression consisting of the single
well-formed decimal literal `10^309.0` (only whitelisted characters, a
plain float literal under the spec grammar) is answered with status 400
and `'Division by zero'`, not with status 200 and its numeric value:
Python's float literal overflows to `inf` and the endpoint's
non-finite-result check fires. -/
theorem claim_C2_counterexample :
    specWF bigFloatLit = true ∧
      calculate (some (.obj [("expression", .str bigFloatLit)])) =
        ⟨400, [("error", .text "Division by zero")]⟩ := by
  constructor
  · decide
  · decide

/-- C2 (amended): for every expression containing only whitelisted
characters that is well-formed under the spec's arithmetic grammar and
whose evaluation yields a finite number (an int or a finite float —
i.e. evaluation neither raises nor exceeds the floating-point range),
the endpoint returns status 200 with exactly the value computed by
standard operator-precedence evaluation (`*`, `/` before `+`, `-`;
parentheses override), as embodied in the independent spec-grammar
evaluator `specEvalStr`. -/
theorem claim_C2 (kvs : List (String × JVal)) (e : String) (v : PyVal)
    (hl : List.lookup "expression" kvs = some (.str e))
    (hwl : e.data.all allowedChar = true)
    (hs : specEvalStr e = some (.ok v))
    (hfin : (∃ n, v = .int n) ∨ ∃ q, v = .float (.fin q)) :
    calculate (some (.obj kvs)) = ⟨200, [("result", .val v)]⟩ := by
  have hne : e ≠ "" := by
    intro he
    rw [he, (by decide : specEvalStr "" = none)] at hs
    exact Option.noConfusion hs
  rw [calculate_eval kvs e hl hne hwl, specEval_pyEval e _ hs]
  rcases hfin with ⟨n, rfl⟩ | ⟨q, rfl⟩ <;> simp [evalOut, finish]

/-- C2 witness: `"2+2"` yields 200 with result 4 and `"2*(3+4)"` yields
200 with result 14. -/
theorem claim_C2_witness :
    calculate (some (.obj [("expression", .str "2+2")])) =
        ⟨200, [("result", .val (.int 4))]⟩ ∧
      calculate (some (.obj [("expression", .str "2*(3+4)")])) =
        ⟨200, [("result", .val (.int 14))]⟩ :=
  ⟨claim_C2 [("expression", .str "2+2")] "2+2" (.int 4) rfl (by decide)
      (by decide) (Or.inl ⟨4, rfl⟩),
    claim_C2 [("expression", .str "2*(3+4)")] "2*(3+4)" (.int 14) rfl (by decide)
      (by decide) (Or.inl ⟨14, rfl⟩)⟩

/-- C3 counterexample: a string of three spaces is non-empty, so
`if not expression` does not fire; the request is answered with 400
`'Invalid expression syntax'` (from `eval`'s `SyntaxError`), not with
`EmptyExpression` as the claim states for whitespace-only strings. -/
theorem claim_C3_counterexample :
    calculate (some (.obj [("expression", .str "   ")])) =
      ⟨400, [("error", .text "Invalid expression syntax")]⟩ := by
  decide

/-- C3 (amended): for every request with a JSON-object body whose
`expression` field is absent or is the empty string, the endpoint
returns status 400 with the `EmptyExpression` error (`'Empty
expression'`).  (A whitespace-only non-empty string is not treated as
empty: it passes the emptiness check and yields `InvalidSyntax`.) -/
theorem claim_C3 (kvs : List (String × JVal))
    (h : List.lookup "expression" kvs = none ∨
      List.lookup "expression" kvs = some (.str "")) :
    calculate (some (.obj kvs)) = ⟨400, [("error", .text "Empty expression")]⟩ := by
  unfold calculate calcCore
  rcases h with h | h <;> simp [h, pyFalsy, finish]

/-- C3 witness: a body with no `expression` field yields 400
`EmptyExpression`. -/
theorem claim_C3_witness :
    calculate (some (.obj [])) = ⟨400, [("error", .text "Empty expression")]⟩ :=
  claim_C3 [] (Or.inl rfl)

/-- C4: for every whitelisted expression whose evaluation raises
`ZeroDivisionError` or produces an infinite float result, the endpoint
returns status 400 with the `DivisionByZero` error (`'Division by
zero'`). -/
theorem claim_C4 (kvs : List (String × JVal)) (e : String)
    (hl : List.lookup "expression" kvs = some (.str e))
    (hwl : e.data.all allowedChar = true)
    (hout : pyEvalStr e = .error .zeroDiv ∨ pyEvalStr e = .ok (.float .inf) ∨
      pyEvalStr e = .ok (.float .ninf)) :
    calculate (some (.obj kvs)) = ⟨400, [("error", .text "Division by zero")]⟩ := by
  have hne : e ≠ "" := by
    intro he
    rw [he, (by decide : pyEvalStr "" = .error .synErr)] at hout
    rcases hout with h | h | h <;> simp at h
  rw [calculate_eval kvs e hl hne hwl]
  rcases hout with h | h | h <;> rw [h] <;> simp [evalOut, finish]

/-- C4 witness: `"1/0"` yields status 400 with `DivisionByZero`. -/
theorem claim_C4_witness :
    calculate (some (.obj [("expression", .str "1/0")])) =
      ⟨400, [("error", .text "Division by zero")]⟩ :=
  claim_C4 [("expression", .str "1/0")] "1/0" rfl (by decide)
    (Or.inl (by decide))

/-- C5 counterexample: `"()"` is whitelisted, non-empty, and malformed
as an arithmetic expression (an empty sub-expression, one of the
claim's own examples), yet the endpoint returns status 200 with the
empty tuple as the result — Python evaluates `()` successfully. -/
theorem claim_C5_counterexample :
    calculate (some (.obj [("expression", .str "()")])) =
      ⟨200, [("result", .val .tup)]⟩ := by
  decide

/-- C5 (amended): for every whitelisted, non-empty expression on which
the evaluator raises a syntax error, the endpoint returns status 400
with the `InvalidSyntax` error (`'Invalid expression syntax'`); in
particular `"((1+2)"` does.  (Not every expression that is malformed as
pure arithmetic raises a syntax error: Python's richer grammar accepts
e.g. `()`, `2**3`, and `(1)(2)`.) -/
theorem claim_C5 (kvs : List (String × JVal)) (e : String)
    (hl : List.lookup "expression" kvs = some (.str e))
    (hne : e ≠ "")
    (hwl : e.data.all allowedChar = true)
    (hsyn : pyEvalStr e = .error .synErr) :
    calculate (some (.obj kvs)) =
      ⟨400, [("error", .text "Invalid expression syntax")]⟩ := by
  rw [calculate_eval kvs e hl hne hwl, hsyn]
  rfl

/-- C5 witness: `"((1+2)"` (unbalanced) yields 400 `InvalidSyntax`. -/
theorem claim_C5_witness :
    calculate (some (.obj [("expression", .str "((1+2)")])) =
      ⟨400, [("error", .text "Invalid expression syntax")]⟩ :=
  claim_C5 [("expression", .str "((1+2)")] "((1+2)" rfl (by decide)
    (by decide) (by decide)

/-- C6: every response of `POST /calculate` carries exactly one of the
fields `result` and `error`: a success response is status 200 with a
sole `result` field, and a failure response is status 400 or 500 with a
sole `error` field. -/
theorem claim_C6 (b : Option JVal) :
    (∃ v, calculate b = ⟨200, [("result", JOut.val v)]⟩) ∨
      ∃ m, calculate b = ⟨400, [("error", JOut.text m)]⟩ ∨
        calculate b = ⟨500, [("error", JOut.text m)]⟩ := by
  cases hc : calcCore b with
  | ok v => exact Or.inl ⟨v, by simp [calculate, hc, finish]⟩
  | fail m c =>
    rcases calcCore_fail_code b m c hc with rfl | rfl
    · exact Or.inr ⟨m, Or.inl (by simp [calculate, hc, finish])⟩
    · exact Or.inr ⟨m, Or.inr (by simp [calculate, hc, finish])⟩

/-- C7: every request to `POST /calculate` produces a structured JSON
response with status 200, 400 or 500 and a single `result` or `error`
field — nothing escapes the endpoint's `try`/`except` boundary — and a
request whose body cannot be parsed at all (the failure mode outside
the evaluation step) yields status 500 with an error message of the
form `'Server error: <message>'`. -/
theorem claim_C7 (b : Option JVal) :
    ((∃ v, calculate b = ⟨200, [("result", JOut.val v)]⟩) ∨
      ∃ m, calculate b = ⟨400, [("error", JOut.text m)]⟩ ∨
        calculate b = ⟨500, [("error", JOut.text m)]⟩) ∧
      (b = none →
        ∃ m, calculate b = ⟨500, [("error", JOut.text ("Server error: " ++ m))]⟩) := by
  constructor
  · cases hc : calcCore b with
    | ok v => exact Or.inl ⟨v, by simp [calculate, hc, finish]⟩
    | fail m c =>
      rcases calcCore_fail_code b m c hc with rfl | rfl
      · exact Or.inr ⟨m, Or.inl (by simp [calculate, hc, finish])⟩
      · exact Or.inr ⟨m, Or.inr (by simp [calculate, hc, finish])⟩
  · rintro rfl
    exact ⟨badBodyMsg, rfl⟩

/-- C7 witness: an unparseable body is answered with status 500 and a
`'Server error: ...'` message. -/
theorem claim_C7_witness :
    ∃ m, calculate none = ⟨500, [("error", JOut.text ("Server error: " ++ m))]⟩ :=
  (claim_C7 none).2 rfl

/-- C8: the `DivisionByZero` classification of evaluation results is
narrow — for a whitelisted expression whose evaluation returns a value,
the endpoint answers 400 `DivisionByZero` exactly when that value is
`+inf` or `-inf`; in particular a NaN result is returned as a status
200 success. -/
theorem claim_C8 (kvs : List (String × JVal)) (e : String) (v : PyVal)
    (hl : List.lookup "expression" kvs = some (.str e))
    (hwl : e.data.all allowedChar = true)
    (hok : pyEvalStr e = .ok v) :
    (calculate (some (.obj kvs)) = ⟨400, [("error", .text "Division by zero")]⟩ ↔
        (v = .float .inf ∨ v = .float .ninf)) ∧
      (v = .float .nan →
        calculate (some (.obj kvs)) = ⟨200, [("result", .val v)]⟩) := by
  have hne : e ≠ "" := by
    intro he
    rw [he, (by decide : pyEvalStr "" = .error .synErr)] at hok
    exact Except.noConfusion hok
  rw [calculate_eval kvs e hl hne hwl, hok]
  constructor
  · constructor
    · intro hresp
      by_contra hni
      rw [evalOut] at hresp
      rw [if_neg hni] at hresp
      simp [finish] at hresp
    · intro hv
      rw [evalOut, if_pos hv]
      rfl
  · rintro rfl
    rw [evalOut, if_neg (by simp)]
    rfl

/-- C8 witness: the whitelisted expression `bigFloatLit - bigFloatLit`
evaluates to NaN (`inf - inf`) and is returned as a 200 success, not an
error. -/
theorem claim_C8_witness :
    calculate (some (.obj [("expression", .str nanExpr)])) =
      ⟨200, [("result", .val (.float .nan))]⟩ :=
  (claim_C8 [("expression", .str nanExpr)] nanExpr (.float .nan) rfl
      (by decide) (by decide)).2 rfl

/-- C9: `GET /health` unconditionally returns status 200 with the
payload `{"status": "healthy"}`; it takes no input and has no failure
mode (it is a constant function, so no prior request can affect it). -/
theorem claim_C9 (u : Unit) :
    health u = ⟨200, [("status", JOut.text "healthy")]⟩ := rfl

/-- C10 counterexample: the truthy list `["a"]` in the `expression`
field is answered with 400 `'Invalid characters in expression'`, not
with a 500 server error as the claim states for truthy non-string
values: the whitelist check iterates the list and `'a'` is not in the
allowed set. -/
theorem claim_C10_counterexample :
    calculate (some (.obj [("expression", .arr [.str "a"])])) =
      ⟨400, [("error", .text "Invalid characters in expression")]⟩ := by
  decide

/-- C10 (amended): for a JSON-object body whose `expression` value is
not a string: a truthy non-iterable value (a nonzero number or `true`)
makes the whitelist iteration raise `TypeError`, caught by the outer
handler as status 500 `'Server error: ...'`; a falsy value (`0`,
`false`, `null`, `""`, `[]`, `{}`) yields 400 `EmptyExpression`.
(Truthy iterable values such as lists are instead iterated by the
whitelist check and can produce 400 responses.) -/
theorem claim_C10 (kvs : List (String × JVal)) (v : JVal)
    (hl : List.lookup "expression" kvs = some v) :
    ((((∃ q, v = .num q ∧ q ≠ 0) ∨ v = .bool true) →
        ∃ m, calculate (some (.obj kvs)) =
          ⟨500, [("error", .text ("Server error: " ++ m))]⟩) ∧
      (pyFalsy v = true →
        calculate (some (.obj kvs)) = ⟨400, [("error", .text "Empty expression")]⟩)) := by
  constructor
  · intro hv
    refine ⟨"'" ++ jTypeName v ++ "' object is not iterable", ?_⟩
    have hfalsy : pyFalsy v = false := by
      rcases hv with ⟨q, rfl, hq⟩ | rfl
      · simp [pyFalsy]
        exact hq
      · rfl
    have hiter : pyIterItems v = none := by
      rcases hv with ⟨q, rfl, hq⟩ | rfl <;> rfl
    unfold calculate calcCore
    simp only [hl, Option.getD_some, hfalsy, Bool.false_eq_true, if_false, hiter, finish]
    conv_rhs => rw [← String.append_assoc]
    rfl
  · intro hv
    unfold calculate calcCore
    simp [hl, hv, finish]

/-- C10 witness: the truthy number `123` yields a 500 `'Server error:
...'`, and `null` yields 400 `EmptyExpression`. -/
theorem claim_C10_witness :
    (∃ m, calculate (some (.obj [("expression", .num 123)])) =
        ⟨500, [("error", .text ("Server error: " ++ m))]⟩) ∧
      calculate (some (.obj [("expression", .null)])) =
        ⟨400, [("error", .text "Empty expression")]⟩ :=
  ⟨(claim_C10 [("expression", .num 123)] (.num 123) rfl).1
      (Or.inl ⟨123, rfl, by norm_num⟩),
    (claim_C10 [("expression", .null)] .null rfl).2 rfl⟩

end CalcApp
